import Mathlib

/-!
Verification development for the `mcpadapt` repository: a shallow embedding
of the pure decision logic of `src/mcpadapt/core.py`,
`src/mcpadapt/smolagents_adapter.py` and `src/mcpadapt/auth/providers.py`,
together with theorems settling the specification's claims about it.

Modelling conventions:
  - Python dictionaries are association lists (`List (String × Json)` or
    `List (String × String)`); Python truthiness of a container is emptiness.
  - JSON values are the inductive `Json` below; a Python `str` is `Json.str`.
  - Fallible Python code (a `raise`) is `Except String`/`Option`.
  - `logger.warning` calls are made explicit: the functions return the list
    of warning messages they emit alongside their result.
  - `json.loads` is an external collaborator and is passed in as a parameter
    `json_loads : String → Option Json` (`none` models `json.JSONDecodeError`).
-/

namespace Mcpadapt

/-- A JSON value (the shape of Python objects flowing through the adapter:
parsed JSON, `structuredContent` payloads and schemas). -/
inductive Json where
  | str : String → Json
  | num : Int → Json
  | bool : Bool → Json
  | null : Json
  | arr : List Json → Json
  | obj : List (String × Json) → Json

/-- Python `isinstance(x, str)` on a value of this model. -/
def Json.isStr : Json → Bool
  | .str _ => true
  | _ => false

/-- Python `d.get(k)` on a dictionary modelled as an association list
(keys are unique in a Python dict; first match). -/
def dictGet (k : String) : List (String × Json) → Option Json
  | [] => none
  | (k2, v) :: rest => if k2 = k then some v else dictGet k rest

/-- Python truthiness of an optional list-like container (`None`, `[]` and
`{}` are falsy; a non-empty container is truthy). -/
def optListTruthy {β : Type} : Option (List β) → Bool
  | none => false
  | some [] => false
  | some (_ :: _) => true

/-! ## Tool name sanitization (`smolagents_adapter.py`, `_sanitize_function_name`) -/

/-- `keyword.kwlist` of Python 3: the reserved keywords checked by
`keyword.iskeyword`. -/
def pythonKeywords : List String :=
  ["False", "None", "True", "and", "as", "assert", "async", "await", "break",
   "class", "continue", "def", "del", "elif", "else", "except", "finally",
   "for", "from", "global", "if",
   "import", "in", "is", "lambda", "nonlocal", "not", "or", "pass",
   "raise", "return", "try", "while", "with", "yield"]

/-- A character kept by `re.sub(r"[^\w_]", "", name)`: Python `\w` modelled
over ASCII as alphanumeric-or-underscore. -/
def isWordChar (c : Char) : Bool := c.isAlphanum || c = '_'

/-- Python `name.replace("-", "_")` (single-character pattern, so a
character-wise map). -/
def replaceDashes (name : String) : String :=
  String.mk (name.toList.map (fun c => if c = '-' then '_' else c))

/-- `_sanitize_function_name` from `smolagents_adapter.py` lines 82-101.
`none` models the `IndexError` that `name[0]` raises when every character
was removed by the strip step. -/
def _sanitize_function_name (name : String) : Option String :=
  let name1 := replaceDashes name
  let chars := name1.toList.filter isWordChar
  match chars with
  | [] => none
  | c0 :: _ =>
    let name2 := String.mk chars
    let name3 := if c0.isDigit then "_" ++ name2 else name2
    some (if pythonKeywords.contains name3 then name3 ++ "_" else name3)

/-- The sanitization rule as the specification words it: replace `-` with
`_`, strip any character that is not alphanumeric or `_`, put `_` in front
if the first character is a digit, and append `_` on a collision with a
reserved keyword. -/
def sanitizeSpecRule (name : String) : String :=
  let replaced := replaceDashes name
  let kept := replaced.toList.filter isWordChar
  match kept with
  | [] => String.mk kept
  | c0 :: _ =>
    let keptStr := String.mk kept
    let marked := if c0.isDigit then "_" ++ keptStr else keptStr
    if pythonKeywords.contains marked then marked ++ "_" else marked

/-! ## MCP data model (`mcp.types`, as consumed by the adapter) -/

/-- `mcp.types.Tool`: the remote tool descriptor. `inputSchema` is carried
but its defaulting pass (`smolagents_adapter.py` lines 182-193) is outside
every claim and is not modelled. `outputSchema : dict | None`. -/
structure Tool where
  name : String
  description : Option String
  inputSchema : List (String × Json)
  outputSchema : Option (List (String × Json))

/-- One content item of a call result; the adapter only distinguishes
`mcp.types.TextContent` from everything else (`kind` names the Python type
of a non-text item). -/
inductive Content where
  | text : String → Content
  | nonText : String → Content

/-- `mcp.types.CallToolResult`: a list of content items plus the optional
pre-parsed `structuredContent : dict | None`. -/
structure CallToolResult where
  content : List Content
  structuredContent : Option (List (String × Json))

/-! ## Warning and error messages of `smolagents_adapter.py` -/

/-- `ValueError` text for an empty `mcp_output.content`. -/
def emptyContentMsg (name : String) : String :=
  "tool " ++ name ++ " returned an empty content"

/-- `ValueError` text for a first content item that is not `TextContent`. -/
def nonTextContentMsg (name kind : String) : String :=
  "tool " ++ name ++ " returned a non-text content: `" ++ kind ++ "`"

/-- Warning for several content items in structured mode. -/
def multipleContentStructuredMsg (name : String) : String :=
  "tool " ++ name ++
    " returned multiple content items but no structuredContent. Using the first content item."

/-- Warning for several content items in plain mode. -/
def multipleContentPlainMsg (name : String) : String :=
  "tool " ++ name ++ " returned multiple content, using the first one"

/-- Warning for text that `json.loads` could not parse in structured mode:
it names the tool and quotes the first 100 characters of the text. -/
def unparseableTextMsg (name text : String) : String :=
  "tool " ++ name ++ " expected structured output but got unparseable text: "
    ++ String.mk (text.toList.take 100) ++ "..."

/-- Warning of `_validate_output_against_schema`. -/
def schemaMismatchMsg (name : String) : String :=
  "tool " ++ name ++ " has outputSchema but returned plain text instead of structured data"

/-! ## `_validate_output_against_schema` (`smolagents_adapter.py` lines 104-141) -/

/-- `_validate_output_against_schema`: returns the output unchanged; with
`strict = false` a mismatch only emits a warning, with `strict = true` it
raises `ValueError`. `if not schema` is Python truthiness, so an absent or
empty schema returns early. -/
def _validate_output_against_schema (output : Json)
    (schema : Option (List (String × Json))) (tool_name : String)
    (strict : Bool) : Except String Json × List String :=
  match schema with
  | none => (.ok output, [])
  | some [] => (.ok output, [])
  | some s =>
    let schema_type := dictGet "type" s
    let typeIsString : Bool :=
      match schema_type with
      | some (Json.str "string") => true
      | _ => false
    if !typeIsString && output.isStr then
      if strict then (.error (schemaMismatchMsg tool_name), [])
      else (.ok output, [schemaMismatchMsg tool_name])
    else (.ok output, [])

/-! ## `MCPAdaptTool` and its `forward` (`smolagents_adapter.py` lines 210-295) -/

/-- The fields of `MCPAdaptTool` that govern output handling. `name` is
the sanitized tool name, `description` is `mcp_tool.description or ""`. -/
structure MCPAdaptTool where
  name : String
  description : String
  output_type : String
  output_schema : Option (List (String × Json))
  use_structured_features : Bool

/-- `MCPAdaptTool.forward`, from the point where the call result
`mcp_output` is in hand (the positional/keyword dispatch to `func` at lines
230-238 only chooses the arguments of the remote call and is outside every
claim). `json_loads` stands for `json.loads`, with `none` as
`json.JSONDecodeError`. The second component is the list of
`logger.warning` messages emitted, in order. -/
def MCPAdaptTool.forward (t : MCPAdaptTool) (json_loads : String → Option Json)
    (mcp_output : CallToolResult) : Except String Json × List String :=
  match mcp_output.content with
  | [] => (.error (emptyContentMsg t.name), [])
  | content_item :: rest =>
    match t.use_structured_features, mcp_output.structuredContent with
    | true, some sc =>
      _validate_output_against_schema (Json.obj sc) t.output_schema t.name false
    | usf, _ =>
      let warns := if rest.isEmpty then []
        else [if usf then multipleContentStructuredMsg t.name
              else multipleContentPlainMsg t.name]
      match content_item with
      | .nonText kind => (.error (nonTextContentMsg t.name kind), warns)
      | .text text_content =>
        if usf && t.output_type == "object" && !(text_content == "") then
          match json_loads text_content with
          | some parsed_data =>
            let v := _validate_output_against_schema parsed_data t.output_schema t.name false
            (v.1, warns ++ v.2)
          | none =>
            (.ok (Json.str text_content),
             warns ++ [unparseableTextMsg t.name text_content])
        else (.ok (Json.str text_content), warns)

/-! ## `SmolAgentsAdapter.adapt` (`smolagents_adapter.py` lines 166-295) -/

/-- `SmolAgentsAdapter.adapt` restricted to the fields the claims are
about. `jsonref.replace_refs` on the output schema is modelled as the
identity (an external library call that preserves the dictionary's
emptiness). Both `and mcp_tool.outputSchema` and `and output_schema` are
Python truthiness tests on the dictionary. The sanitizer can raise on a
degenerate name, hence the `Option`. -/
def SmolAgentsAdapter.adapt (structured_output : Bool) (mcp_tool : Tool) :
    Option MCPAdaptTool :=
  let output_schema : Option (List (String × Json)) :=
    if structured_output && optListTruthy mcp_tool.outputSchema then
      mcp_tool.outputSchema
    else none
  let output_type : String :=
    if structured_output && optListTruthy output_schema then "object" else "string"
  match _sanitize_function_name mcp_tool.name with
  | none => none
  | some n =>
    some { name := n
           , description := mcp_tool.description.getD ""
           , output_type := output_type
           , output_schema := output_schema
           , use_structured_features := structured_output }

/-! ## Session timeout handling (`core.py`, `mcptools`, lines 74-142) -/

/-- The Python value of `mcptools`'s `client_session_timeout_seconds`
parameter, declared `float | timedelta | None = 5`. The declared default is
the Python `int` literal `5`. Durations are rational seconds. -/
inductive TimeoutArg where
  | int : Int → TimeoutArg
  | float : Rat → TimeoutArg
  | timedelta : Rat → TimeoutArg
  | nothing : TimeoutArg

/-- The default value of `client_session_timeout_seconds` in `mcptools`:
the literal `5`, which in Python is an `int`. -/
def defaultClientSessionTimeout : TimeoutArg := .int 5

/-- `core.py` lines 118-122: the `timeout_delta` handed to `ClientSession`.
`isinstance(x, float)` is false for a Python `int`, so only a `float` or a
`timedelta` produces a timeout; anything else leaves `timeout_delta = None`
(no read timeout at all). -/
def timeoutDelta : TimeoutArg → Option Rat
  | .float seconds => some seconds
  | .timedelta d => some d
  | _ => none

/-! ## `MCPAdapt.tools` / `MCPAdapt.atools` guards (`core.py` lines 222-295) -/

/-- A live `ClientSession` object (always truthy in Python). -/
structure ClientSessionRef where
  ident : Nat

/-- `MCPAdapt.tools`: the guard `if not self.session or not self.mcp_tools`
raises `RuntimeError`; otherwise each advertised tool is adapted. The
adapter call is abstracted as `adaptF`. -/
def MCPAdapt.tools {α : Type} (session : Option ClientSessionRef)
    (mcp_tools : Option (List Tool)) (adaptF : Tool → α) :
    Except String (List α) :=
  if session.isNone || !optListTruthy mcp_tools then
    .error "Session not initialized or no tools found."
  else .ok ((mcp_tools.getD []).map adaptF)

/-- `MCPAdapt.atools`: the same guard with the async wording, then
`async_adapt` on each advertised tool. -/
def MCPAdapt.atools {α : Type} (session : Option ClientSessionRef)
    (mcp_tools : Option (List Tool)) (asyncAdaptF : Tool → α) :
    Except String (List α) :=
  if session.isNone || !optListTruthy mcp_tools then
    .error "Async session not initialized or no tools found."
  else .ok ((mcp_tools.getD []).map asyncAdaptF)

/-! ## Multi-server fault-tolerant aggregation -/

/-- The state the aggregation leaves behind: the merged tool list, the
`failed_connections` list and the log of `on_connection_error` invocations
(one entry per call, in call order). -/
structure AggregationState (D E T : Type) where
  tools : List T
  failed_connections : List (D × E)
  observer_calls : List (D × E)

/-- Modelled from the spec: the `fail_fast = False` branch of the
multi-server aggregator (spec section 4.3). The aggregator itself
(`fail_fast`, `failed_connections`, `on_connection_error`) is exercised by
`tests/test_core_fault_tolerance.py` but absent from
`src/src/mcpadapt/core.py` in this snapshot, whose `MCPAdapt` takes a
single server descriptor and no policy flags. Per the spec: each
descriptor's connection is attempted (`attempt d` is `Failure(error)` or
`Success(tools)`); a failure is appended to `failed_connections` and
reported once to the observer, in descriptor order; a success contributes
its tools, in descriptor order; no failure aborts the operation. -/
def aggregateFailSlow {D E T : Type} (attempt : D → Except E (List T)) :
    List D → AggregationState D E T
  | [] => ⟨[], [], []⟩
  | d :: rest =>
    match attempt d with
    | .ok ts =>
      let s := aggregateFailSlow attempt rest
      ⟨ts ++ s.tools, s.failed_connections, s.observer_calls⟩
    | .error e =>
      let s := aggregateFailSlow attempt rest
      ⟨s.tools, (d, e) :: s.failed_connections, (d, e) :: s.observer_calls⟩

/-! ## Auth providers (`auth/providers.py`) with an explicit dictionary heap -/

/-- `ApiKeyConfig`: the header name/value pair. -/
structure ApiKeyConfig where
  header_name : String
  header_value : String

/-- `BearerAuthConfig`: the bearer token. -/
structure BearerAuthConfig where
  token : String

/-- The immutable state a provider instance holds (its `config`). -/
inductive AuthProviderState where
  | apiKey : ApiKeyConfig → AuthProviderState
  | bearer : BearerAuthConfig → AuthProviderState

/-- The header mapping each `get_headers` builds:
`{header_name: header_value}` for the API key provider,
`{"Authorization": "Bearer " + token}` for the bearer provider. -/
def headersOf : AuthProviderState → List (String × String)
  | .apiKey c => [(c.header_name, c.header_value)]
  | .bearer c => [("Authorization", "Bearer " ++ c.token)]

/-- A heap of allocated Python dictionaries, addressed by allocation index.
Each `get_headers` call builds a fresh dict literal, i.e. allocates. -/
structure DictHeap where
  dicts : List (List (String × String))

/-- Allocate a new dictionary; returns the heap and the new reference. -/
def DictHeap.alloc (h : DictHeap) (d : List (String × String)) : DictHeap × Nat :=
  (⟨h.dicts ++ [d]⟩, h.dicts.length)

/-- Read the dictionary a reference points to. -/
def DictHeap.read (h : DictHeap) (r : Nat) : List (String × String) :=
  h.dicts.getD r []

/-- Python `d[k] = v` on an association list: overwrite the key in place,
or append it. -/
def assocSet (k v : String) : List (String × String) → List (String × String)
  | [] => [(k, v)]
  | (k2, v2) :: rest =>
    if k2 = k then (k, v) :: rest else (k2, v2) :: assocSet k v rest

/-- Mutate one entry of the dictionary a reference points to. -/
def DictHeap.setKey (h : DictHeap) (r : Nat) (k v : String) : DictHeap :=
  ⟨h.dicts.set r (assocSet k v (h.dicts.getD r []))⟩

/-- `get_headers` of either provider: builds and returns a fresh dict from
the instance's config, without touching the instance. -/
def get_headers (p : AuthProviderState) (h : DictHeap) :
    AuthProviderState × DictHeap × Nat :=
  let a := h.alloc (headersOf p)
  (p, a.1, a.2)

/-! ## Helper lemmas -/

/-- Inverting a successful `SmolAgentsAdapter.adapt`: the fields of the
produced tool in terms of the adapter flag and the tool descriptor. -/
theorem adapt_fields {structured_output : Bool} {mcp_tool : Tool} {t : MCPAdaptTool}
    (h : SmolAgentsAdapter.adapt structured_output mcp_tool = some t) :
    t.use_structured_features = structured_output ∧
    t.output_schema = (if structured_output && optListTruthy mcp_tool.outputSchema
      then mcp_tool.outputSchema else none) ∧
    t.output_type = (if structured_output && optListTruthy t.output_schema
      then "object" else "string") := by
  simp only [SmolAgentsAdapter.adapt] at h
  split at h
  · exact absurd h (by simp)
  · cases h
    exact ⟨rfl, rfl, rfl⟩

/-- With `strict = false`, `_validate_output_against_schema` always returns
its input unchanged (it can only warn). -/
theorem validate_nonstrict_fst (output : Json)
    (schema : Option (List (String × Json))) (name : String) :
    (_validate_output_against_schema output schema name false).1 = .ok output := by
  rcases schema with - | (- | ⟨kv, s⟩)
  · rfl
  · rfl
  · simp only [_validate_output_against_schema]
    split <;> rfl

/-- Reading just past a list prefix lands on the appended element. -/
theorem getD_append_cons_length {α : Type} (l : List α) (a : α) (tl : List α) (d : α) :
    (l ++ a :: tl).getD l.length d = a := by
  induction l with
  | nil => rfl
  | cons x xs ih => simpa using ih

/-- `List.set` at one index leaves `getD` at any other index unchanged. -/
theorem getD_set_ne {α : Type} (l : List α) (i j : Nat) (a : α) (d : α)
    (h : i ≠ j) : (l.set i a).getD j d = l.getD j d := by
  induction l generalizing i j with
  | nil => rfl
  | cons x xs ih =>
    cases i with
    | zero =>
      cases j with
      | zero => exact absurd rfl h
      | succ j => simp [List.set]
    | succ i =>
      cases j with
      | zero => simp [List.set]
      | succ j =>
        simp only [List.set, List.getD_cons_succ]
        exact ih i j (fun hh => h (by rw [hh]))

/-! ## The claims -/

/-- C1: with `fail_fast = false`, the aggregation collects one
`(descriptor, error)` entry per failed descriptor in descriptor order into
`failed_connections`, invokes the `on_connection_error` observer exactly
once per failure (the invocation log equals the failure list), proceeds
with exactly the tools of the successful connections in descriptor order,
and when every connection fails it still returns, with an empty tool
collection. -/
theorem aggregator_fail_slow_spec {D E T : Type}
    (attempt : D → Except E (List T)) (descs : List D) :
    (aggregateFailSlow attempt descs).failed_connections
      = descs.filterMap (fun d => match attempt d with
          | .error e => some (d, e)
          | .ok _ => none) ∧
    (aggregateFailSlow attempt descs).observer_calls
      = (aggregateFailSlow attempt descs).failed_connections ∧
    (aggregateFailSlow attempt descs).tools
      = (descs.filterMap (fun d => match attempt d with
          | .ok ts => some ts
          | .error _ => none)).flatten ∧
    ((∀ d ∈ descs, ∀ ts, attempt d ≠ .ok ts) →
      (aggregateFailSlow attempt descs).tools = []) := by
  have main : (aggregateFailSlow attempt descs).failed_connections
      = descs.filterMap (fun d => match attempt d with
          | .error e => some (d, e)
          | .ok _ => none) ∧
      (aggregateFailSlow attempt descs).observer_calls
        = (aggregateFailSlow attempt descs).failed_connections ∧
      (aggregateFailSlow attempt descs).tools
        = (descs.filterMap (fun d => match attempt d with
            | .ok ts => some ts
            | .error _ => none)).flatten := by
    induction descs with
    | nil => exact ⟨rfl, rfl, rfl⟩
    | cons d rest ih =>
      cases h : attempt d with
      | ok ts =>
        simp [aggregateFailSlow, h, ih.1, ih.2.1, ih.2.2]
      | error e =>
        simp [aggregateFailSlow, h, ih.1, ih.2.1, ih.2.2]
  refine ⟨main.1, main.2.1, main.2.2, ?_⟩
  intro hall
  rw [main.2.2]
  have hnil : descs.filterMap (fun d => match attempt d with
      | .ok ts => some ts
      | .error _ => none) = [] := by
    rw [List.filterMap_eq_nil_iff]
    intro d hd
    cases h : attempt d with
    | ok ts => exact absurd h (hall d hd ts)
    | error e => rfl
  rw [hnil]
  rfl

/-- C2: the default of `client_session_timeout_seconds` is the Python
`int` literal `5`, but the conversion in `mcptools` only accepts a `float`
or a `timedelta`, so the default yields `timeout_delta = None` — no read
timeout reaches `ClientSession` and the claimed 5-second default is never
applied. -/
theorem default_session_timeout_not_applied :
    defaultClientSessionTimeout = TimeoutArg.int 5 ∧
    timeoutDelta defaultClientSessionTimeout = none ∧
    timeoutDelta (TimeoutArg.float 5) = some 5 ∧
    timeoutDelta (TimeoutArg.timedelta 5) = some 5 :=
  ⟨rfl, rfl, rfl, rfl⟩

/-- C3: a tool adapted with `structured_output = False` returns the first
text content item's text unchanged, raises on empty content, and raises
when the first content item is not text. -/
theorem raw_text_mode_round_trip (mcp_tool : Tool) (t : MCPAdaptTool)
    (json_loads : String → Option Json) (res : CallToolResult)
    (hadapt : SmolAgentsAdapter.adapt false mcp_tool = some t) :
    (∀ s rest, res.content = Content.text s :: rest →
      (t.forward json_loads res).1 = .ok (Json.str s)) ∧
    (res.content = [] →
      (t.forward json_loads res).1 = .error (emptyContentMsg t.name)) ∧
    (∀ kind rest, res.content = Content.nonText kind :: rest →
      (t.forward json_loads res).1 = .error (nonTextContentMsg t.name kind)) := by
  obtain ⟨husf, -, -⟩ := adapt_fields hadapt
  refine ⟨?_, ?_, ?_⟩
  · intro s rest hc
    simp [MCPAdaptTool.forward, hc, husf]
  · intro hc
    simp [MCPAdaptTool.forward, hc]
  · intro kind rest hc
    simp [MCPAdaptTool.forward, hc, husf]

/-- C3 witness: the raw-text round trip evaluated on the echo tool and the
payload `"hello"`. -/
theorem raw_text_mode_round_trip_witness :
    ((⟨"echo_tool", "", "string", none, false⟩ : MCPAdaptTool).forward
      (fun _ => none) ⟨[Content.text "hello"], none⟩).1 = .ok (Json.str "hello") :=
  (raw_text_mode_round_trip ⟨"echo-tool", none, [], none⟩
    ⟨"echo_tool", "", "string", none, false⟩ (fun _ => none)
    ⟨[Content.text "hello"], none⟩ rfl).1 "hello" [] rfl

/-- C4 counterexample: a call result that carries a structured payload but
has empty `content` makes `forward` raise (`content` is checked first), so
the payload is not returned for every result that carries one. -/
theorem structured_payload_empty_content_cex :
    (SmolAgentsAdapter.adapt true ⟨"t", some "d", [], some [("type", Json.str "object")]⟩
      = some ⟨"t", "d", "object", some [("type", Json.str "object")], true⟩) ∧
    CallToolResult.structuredContent ⟨[], some [("x", Json.str "1")]⟩
      = some [("x", Json.str "1")] ∧
    ((⟨"t", "d", "object", some [("type", Json.str "object")], true⟩ : MCPAdaptTool).forward
      (fun _ => none) ⟨[], some [("x", Json.str "1")]⟩).1 = .error (emptyContentMsg "t") :=
  ⟨rfl, rfl, rfl⟩

/-- C4 (amended): for a tool adapted in structured-object mode and a call
result with non-empty content, a present structured payload is returned
(after non-strict validation, hence unchanged) whatever the JSON parser
would say; only when no structured payload is present is the first text
content item handed to the JSON parser. -/
theorem structured_object_prefers_payload (mcp_tool : Tool) (t : MCPAdaptTool)
    (json_loads : String → Option Json) (res : CallToolResult)
    (hadapt : SmolAgentsAdapter.adapt true mcp_tool = some t)
    (hobj : t.output_type = "object") :
    (∀ sc c rest, res.content = c :: rest → res.structuredContent = some sc →
      (t.forward json_loads res).1 = .ok (Json.obj sc)) ∧
    (∀ s rest, res.content = Content.text s :: rest → res.structuredContent = none →
      s ≠ "" →
      (t.forward json_loads res).1 =
        (match json_loads s with
         | some parsed => Except.ok parsed
         | none => Except.ok (Json.str s))) := by
  obtain ⟨husf, -, -⟩ := adapt_fields hadapt
  refine ⟨?_, ?_⟩
  · intro sc c rest hc hsc
    simp [MCPAdaptTool.forward, hc, hsc, husf, validate_nonstrict_fst]
  · intro s rest hc hsc hne
    cases hjl : json_loads s with
    | some parsed =>
      simp [MCPAdaptTool.forward, hc, hsc, husf, hobj, hne, hjl, validate_nonstrict_fst]
    | none =>
      simp [MCPAdaptTool.forward, hc, hsc, husf, hobj, hne, hjl]

/-- C4 witness: with a structured payload present and non-empty content,
`forward` returns the payload even though the parser rejects everything. -/
theorem structured_object_prefers_payload_witness :
    ((⟨"t", "d", "object", some [("type", Json.str "object")], true⟩ : MCPAdaptTool).forward
      (fun _ => none) ⟨[Content.text "x"], some [("a", Json.num 1)]⟩).1
      = .ok (Json.obj [("a", Json.num 1)]) :=
  (structured_object_prefers_payload ⟨"t", some "d", [], some [("type", Json.str "object")]⟩
    ⟨"t", "d", "object", some [("type", Json.str "object")], true⟩ (fun _ => none)
    ⟨[Content.text "x"], some [("a", Json.num 1)]⟩ rfl rfl).1
    [("a", Json.num 1)] (Content.text "x") [] rfl rfl

/-- C5 counterexample: an empty first text content item is not handed to
the parser at all (the code also requires the text to be truthy), so a
text that fails to parse — `json.loads("")` fails — produces no warning;
the call returns the empty text with an empty warning list. -/
theorem parse_failure_empty_text_cex :
    ((fun _ => (none : Option Json)) "" = none) ∧
    (SmolAgentsAdapter.adapt true ⟨"t", some "d", [], some [("type", Json.str "object")]⟩
      = some ⟨"t", "d", "object", some [("type", Json.str "object")], true⟩) ∧
    (⟨"t", "d", "object", some [("type", Json.str "object")], true⟩ : MCPAdaptTool).forward
      (fun _ => none) ⟨[Content.text ""], none⟩ = (.ok (Json.str ""), []) :=
  ⟨rfl, rfl, rfl⟩

/-- C5 (amended): for a tool adapted in structured-object mode, when the
first text content item is non-empty and fails to parse as JSON, the call
emits the warning naming the tool and the first 100 characters of the
text, and returns the raw text unchanged — no exception for this
failure. -/
theorem parse_failure_warns_and_falls_back (mcp_tool : Tool) (t : MCPAdaptTool)
    (json_loads : String → Option Json) (res : CallToolResult)
    (s : String) (rest : List Content)
    (hadapt : SmolAgentsAdapter.adapt true mcp_tool = some t)
    (hobj : t.output_type = "object")
    (hsc : res.structuredContent = none)
    (hc : res.content = Content.text s :: rest)
    (hne : s ≠ "") (hparse : json_loads s = none) :
    (t.forward json_loads res).1 = .ok (Json.str s) ∧
    unparseableTextMsg t.name s ∈ (t.forward json_loads res).2 := by
  obtain ⟨husf, -, -⟩ := adapt_fields hadapt
  constructor
  · simp [MCPAdaptTool.forward, hc, hsc, husf, hobj, hne, hparse]
  · simp [MCPAdaptTool.forward, hc, hsc, husf, hobj, hne, hparse]

/-- C5 witness: the fallback evaluated on unparsable text `"notjson"`. -/
theorem parse_failure_warns_and_falls_back_witness :
    ((⟨"t", "d", "object", some [("type", Json.str "object")], true⟩ : MCPAdaptTool).forward
      (fun _ => none) ⟨[Content.text "notjson"], none⟩).1 = .ok (Json.str "notjson") ∧
    unparseableTextMsg "t" "notjson" ∈
      ((⟨"t", "d", "object", some [("type", Json.str "object")], true⟩ : MCPAdaptTool).forward
        (fun _ => none) ⟨[Content.text "notjson"], none⟩).2 :=
  parse_failure_warns_and_falls_back
    ⟨"t", some "d", [], some [("type", Json.str "object")]⟩
    ⟨"t", "d", "object", some [("type", Json.str "object")], true⟩
    (fun _ => none) ⟨[Content.text "notjson"], none⟩ "notjson" []
    rfl rfl rfl rfl (by decide) rfl

/-- C6: whenever the sanitizer returns at all, its result is exactly the
specification's rule — replace `-` by `_`, strip non-word characters,
put `_` in front of a leading digit, append `_` on a keyword collision —
and the three quoted examples evaluate as claimed. -/
theorem sanitizer_rule_and_examples :
    (∀ name r, _sanitize_function_name name = some r → r = sanitizeSpecRule name) ∧
    _sanitize_function_name "echo-tool" = some "echo_tool" ∧
    _sanitize_function_name "def" = some "def_" ∧
    _sanitize_function_name "123x" = some "_123x" := by
  refine ⟨?_, rfl, rfl, rfl⟩
  intro name r h
  cases hc : List.filter isWordChar (replaceDashes name).toList with
  | nil =>
    have hn : _sanitize_function_name name = none := by
      simp only [_sanitize_function_name, hc]
    rw [hn] at h
    exact Option.noConfusion h
  | cons c0 cs =>
    simp only [_sanitize_function_name, hc, Option.some.injEq] at h
    simp only [sanitizeSpecRule, hc]
    exact h.symm

/-- C7 counterexample: with structured output enabled and a declared but
empty output schema (`outputSchema = {}`, which is not `None`), the
adapted tool's output type is `"string"`, not `"object"`: Python
truthiness of the schema dict, not its presence, drives the decision. -/
theorem declared_empty_schema_gives_string_cex :
    ((some [] : Option (List (String × Json))) ≠ none) ∧
    SmolAgentsAdapter.adapt true ⟨"t", some "d", [], some []⟩
      = some ⟨"t", "d", "string", none, true⟩ :=
  ⟨by simp, rfl⟩

/-- C7 (amended): the output mode is fixed at adaptation time: the output
type is `"object"` exactly when structured output is enabled and the tool
declares a non-empty (truthy) output schema, and `"string"` otherwise; in
particular a tool with no output schema adapted with structured output
enabled gets output type `"string"` and a `None` output schema. -/
theorem output_type_decision (structured_output : Bool) (mcp_tool : Tool)
    (t : MCPAdaptTool)
    (hadapt : SmolAgentsAdapter.adapt structured_output mcp_tool = some t) :
    (t.output_type = "object" ↔
      structured_output = true ∧ optListTruthy mcp_tool.outputSchema = true) ∧
    (t.output_type = "object" ∨ t.output_type = "string") ∧
    (structured_output = true → mcp_tool.outputSchema = none →
      t.output_type = "string" ∧ t.output_schema = none) := by
  obtain ⟨-, hsch, hty⟩ := adapt_fields hadapt
  have hkey : t.output_type =
      (if structured_output && optListTruthy mcp_tool.outputSchema
        then "object" else "string") := by
    rw [hty, hsch]
    cases hb : (structured_output && optListTruthy mcp_tool.outputSchema) with
    | false => simp [optListTruthy]
    | true =>
      have h1 := ((Bool.and_eq_true _ _).mp hb).1
      have h2 := ((Bool.and_eq_true _ _).mp hb).2
      simp [h1, h2]
  refine ⟨?_, ?_, ?_⟩
  · rw [hkey]
    cases h1 : structured_output <;>
      cases h2 : optListTruthy mcp_tool.outputSchema <;> decide
  · rw [hkey]
    cases hb : (structured_output && optListTruthy mcp_tool.outputSchema) <;> decide
  · intro h1 h2
    constructor
    · rw [hkey, h1, h2]
      simp [optListTruthy]
    · rw [hsch, h1, h2]
      simp [optListTruthy]

/-- C7 witness: a tool with no output schema adapted with structured
output enabled. -/
theorem output_type_decision_witness :
    ((MCPAdaptTool.output_type ⟨"x", "", "string", none, true⟩ = "object") ↔
      (true = true ∧ optListTruthy (Tool.outputSchema ⟨"x", none, [], none⟩) = true)) ∧
    (MCPAdaptTool.output_type ⟨"x", "", "string", none, true⟩ = "object" ∨
      MCPAdaptTool.output_type ⟨"x", "", "string", none, true⟩ = "string") ∧
    (true = true → Tool.outputSchema ⟨"x", none, [], none⟩ = none →
      MCPAdaptTool.output_type ⟨"x", "", "string", none, true⟩ = "string" ∧
      MCPAdaptTool.output_schema ⟨"x", "", "string", none, true⟩ = none) :=
  output_type_decision true ⟨"x", none, [], none⟩ ⟨"x", "", "string", none, true⟩ rfl

/-- C8: `get_headers` does not mutate the provider, two calls produce
equal header mappings held in two distinct fresh dictionaries, and
mutating either returned dictionary leaves the other one unchanged. -/
theorem get_headers_fresh_and_pure (p : AuthProviderState) (h0 : DictHeap)
    (k v : String) :
    let c1 := get_headers p h0
    let c2 := get_headers c1.1 c1.2.1
    c1.1 = p ∧ c2.1 = p ∧
    c2.2.1.read c1.2.2 = headersOf p ∧
    c2.2.1.read c2.2.2 = headersOf p ∧
    c1.2.2 ≠ c2.2.2 ∧
    (c2.2.1.setKey c1.2.2 k v).read c2.2.2 = c2.2.1.read c2.2.2 ∧
    (c2.2.1.setKey c2.2.2 k v).read c1.2.2 = c2.2.1.read c1.2.2 := by
  intro c1 c2
  refine ⟨rfl, rfl, ?_, ?_, ?_, ?_, ?_⟩
  · show ((h0.dicts ++ [headersOf p]) ++ [headersOf p]).getD h0.dicts.length [] = headersOf p
    rw [List.append_assoc]
    exact getD_append_cons_length h0.dicts (headersOf p) _ []
  · show ((h0.dicts ++ [headersOf p]) ++ [headersOf p]).getD (h0.dicts ++ [headersOf p]).length []
      = headersOf p
    exact getD_append_cons_length (h0.dicts ++ [headersOf p]) (headersOf p) [] []
  · show h0.dicts.length ≠ (h0.dicts ++ [headersOf p]).length
    simp
  · show (((h0.dicts ++ [headersOf p]) ++ [headersOf p]).set h0.dicts.length _).getD
        (h0.dicts ++ [headersOf p]).length []
      = ((h0.dicts ++ [headersOf p]) ++ [headersOf p]).getD (h0.dicts ++ [headersOf p]).length []
    exact getD_set_ne _ _ _ _ _ (by simp)
  · show (((h0.dicts ++ [headersOf p]) ++ [headersOf p]).set (h0.dicts ++ [headersOf p]).length _).getD
        h0.dicts.length []
      = ((h0.dicts ++ [headersOf p]) ++ [headersOf p]).getD h0.dicts.length []
    exact getD_set_ne _ _ _ _ _ (by simp)

/-- C9: with an initialized session but an advertised tool list of zero
tools, both `tools()` and `atools()` raise their runtime error, and the
outcome is the same as with an uninitialized session. -/
theorem empty_advertised_tools_raise {α : Type} (s : ClientSessionRef)
    (adaptF asyncAdaptF : Tool → α) :
    MCPAdapt.tools (some s) (some []) adaptF
      = .error "Session not initialized or no tools found." ∧
    MCPAdapt.atools (some s) (some []) asyncAdaptF
      = .error "Async session not initialized or no tools found." ∧
    MCPAdapt.tools (some s) (some []) adaptF = MCPAdapt.tools none none adaptF ∧
    MCPAdapt.atools (some s) (some []) asyncAdaptF = MCPAdapt.atools none none asyncAdaptF :=
  ⟨rfl, rfl, rfl, rfl⟩

/-- C10: the sanitizer fails (the `IndexError` of `name[0]`, modelled as
`none`) exactly when the strip step removes every character — so on the
empty string and on punctuation-only names — and succeeds whenever at
least one alphanumeric-or-underscore character survives. -/
theorem sanitizer_partiality :
    _sanitize_function_name "" = none ∧
    _sanitize_function_name "!!!" = none ∧
    (∀ name, _sanitize_function_name name = none ↔
      (replaceDashes name).toList.filter isWordChar = []) := by
  refine ⟨rfl, rfl, ?_⟩
  intro name
  cases hc : List.filter isWordChar (replaceDashes name).toList with
  | nil =>
    have hn : _sanitize_function_name name = none := by
      simp only [_sanitize_function_name, hc]
    simp [hn, hc]
  | cons c0 cs =>
    have hs : _sanitize_function_name name ≠ none := by
      simp only [_sanitize_function_name, hc]
      exact fun hx => Option.noConfusion hx
    simp [hs, hc]

end Mcpadapt
